import Mathlib

/-!
Verification of the address-space allocation and provisioning-retry logic of
`iac.py` (class `AWSInfrastructure`).  The Python functions are shallowly
embedded as executable Lean functions; cloud-provider calls are modelled by an
inventory snapshot (results of the describe calls) and by explicit response
scripts (results of the create calls), following the black-box provider
semantics of the script's own API usage.
-/

namespace Iac

/-- An IPv4 CIDR range: `base` is the integer value of the network address,
`plen` the prefix length.  The range covers `[base, base + 2^(32-plen))`,
mirroring Python's `ipaddress.ip_network`. -/
structure Cidr where
  base : Nat
  plen : Nat
deriving DecidableEq, Repr

/-- Number of addresses in the range. -/
def Cidr.size (c : Cidr) : Nat := 2 ^ (32 - c.plen)

/-- `ipaddress`'s `overlaps`: the two address intervals intersect. -/
def cidrOverlaps (a b : Cidr) : Bool :=
  decide (a.base < b.base + b.size) && decide (b.base < a.base + a.size)

/-- `a` lies entirely within `b` (interval containment). -/
def cidrWithin (a b : Cidr) : Bool :=
  decide (b.base ≤ a.base) && decide (a.base + a.size ≤ b.base + b.size)

/-- `ipaddress.ip_network(...).subnets(new_prefix=p)`: all sub-ranges of `b`
of prefix length `p`, in address order.  An invalid `p` (smaller than the
block's prefix, or beyond 32) raises `ValueError` in Python, which every
caller catches and skips; that is modelled by the empty list. -/
def subnetsOf (b : Cidr) (p : Nat) : List Cidr :=
  if b.plen ≤ p ∧ p ≤ 32 then
    (List.range (2 ^ (p - b.plen))).map (fun i => ⟨b.base + i * 2 ^ (32 - p), p⟩)
  else []

/-- One entry of a VPC's `CidrBlockAssociationSet`. -/
structure CidrAssoc where
  cidrBlock : Option Cidr
  state : String
deriving DecidableEq, Repr

/-- Result of `get_vpc_info`: the primary CIDR block plus the association
set. -/
structure VpcInfo where
  cidrBlock : Cidr
  assocs : List CidrAssoc
deriving DecidableEq, Repr

/-- The `vpc_cidrs` list built at the top of `find_available_cidr` and
`suggest_subnet_cidr` (iac.py lines 106-111 / 182-187): the primary block,
then each associated secondary block not already present. -/
def vpcCidrsOf (vi : VpcInfo) : List Cidr :=
  vi.assocs.foldl
    (fun acc a =>
      if a.state = "associated" then
        match a.cidrBlock with
        | some c => if acc.contains c then acc else acc ++ [c]
        | none => acc
      else acc)
    [vi.cidrBlock]

/-- One record of `describe_subnets`: id, CIDR, availability zone and free
address count. -/
structure SubnetRec where
  id : String
  cidr : Cidr
  az : String
  availableIpAddressCount : Nat
deriving DecidableEq, Repr

/-- Snapshot of every describe call the allocator performs: `get_vpc_info`
(`none` models the VPC-not-found / provider-error path), `get_existing_subnets`
(errors yield `[]` in the source) and `get_available_zones` (likewise). -/
structure Inventory where
  vpcInfo : Option VpcInfo
  subnets : List SubnetRec
  zones : List String
deriving DecidableEq, Repr

/-- The availability-zone pick shared by `find_available_cidr` (lines
141-148) and `suggest_subnet_cidr` (lines 192-197):
`next((az for az in all_azs if az not in existing_azs), all_azs[0])`,
yielding `none` exactly when the provider reported zero available zones. -/
def pick_az (all_azs existing_azs : List String) : Option String :=
  match all_azs with
  | [] => none
  | a :: _ => some (((all_azs.find? (fun z => !existing_azs.contains z))).getD a)

/-- The candidate-size list of iac.py line 125:
`[subnet_size, 25, 26, 27] if subnet_size >= 24 else [subnet_size]`. -/
def subnet_sizes (subnet_size : Nat) : List Nat :=
  if 24 ≤ subnet_size then [subnet_size, 25, 26, 27] else [subnet_size]

/-- One linear scan of `find_available_cidr`'s candidate loop (lines 136-150
and 155-164): return the first candidate that overlaps no used network,
paired with the picked zone; a candidate is skipped when no zone is
available (`continue`, line 145/161). -/
def firstFit (cands used : List Cidr) (existing_azs zones : List String) :
    Option (Cidr × String) :=
  cands.findSome? (fun c =>
    if used.any (fun u => cidrOverlaps c u) then none
    else
      match pick_az zones existing_azs with
      | some az => some (c, az)
      | none => none)

/-- `find_available_cidr` (iac.py lines 98-173): scan each VPC CIDR block,
each candidate size, forward then reverse, for a sub-range overlapping no
existing subnet, and pick an availability zone for it.  Returns `none` when
the VPC lookup fails and when the search is exhausted alike. -/
def find_available_cidr (inv : Inventory) (subnet_size : Nat) :
    Option (Cidr × String) :=
  match inv.vpcInfo with
  | none => none
  | some vi =>
    let vpc_cidrs := vpcCidrsOf vi
    let used_networks := inv.subnets.map (fun s => s.cidr)
    let existing_azs := inv.subnets.map (fun s => s.az)
    let sizes := subnet_sizes subnet_size
    vpc_cidrs.findSome? (fun b =>
      sizes.findSome? (fun p =>
        let cands := subnetsOf b p
        match firstFit cands used_networks existing_azs inv.zones with
        | some r => some r
        | none => firstFit cands.reverse used_networks existing_azs inv.zones))

/-- Python's `l[-n:]`: the last `n` elements (all of them when `n` exceeds
the length). -/
def lastN (n : Nat) (l : List α) : List α := l.drop (l.length - n)

/-- `suggest_subnet_cidr` (iac.py lines 175-230): advisory variant that only
examines the last 20 /24 candidates of each block (in reverse order), then
the last 10 candidates of sizes /25, /26, /27. -/
def suggest_subnet_cidr (inv : Inventory) : Option (Cidr × String) :=
  match inv.vpcInfo with
  | none => none
  | some vi =>
    let vpc_cidrs := vpcCidrsOf vi
    let used_networks := inv.subnets.map (fun s => s.cidr)
    let existing_azs := inv.subnets.map (fun s => s.az)
    match pick_az inv.zones existing_azs with
    | none => none
    | some az =>
      vpc_cidrs.findSome? (fun b =>
        match (lastN 20 (subnetsOf b 24)).reverse.find?
            (fun c => !used_networks.any (fun u => cidrOverlaps c u)) with
        | some c => some (c, az)
        | none =>
          [25, 26, 27].findSome? (fun p =>
            ((lastN 10 (subnetsOf b p)).reverse.find?
                (fun c => !used_networks.any (fun u => cidrOverlaps c u))).map
              (fun c => (c, az))))

/-- `check_existing_subnet_space` (iac.py lines 71-85): first subnet of the
VPC not in the exclusion list with at least 8 free addresses.  Note the
source never inspects availability zones despite its docstring. -/
def check_existing_subnet_space (inv : Inventory) (exclude_subnet_ids : List String) :
    Option String :=
  inv.subnets.findSome? (fun s =>
    if exclude_subnet_ids.contains s.id then none
    else if 8 ≤ s.availableIpAddressCount then some s.id else none)

/-- Lowercase-hex-or-digit character class `[a-f0-9]` of the regex at
iac.py line 335. -/
def isHexDigitLower (c : Char) : Bool :=
  (decide ('a' ≤ c) && decide (c ≤ 'f')) || (decide ('0' ≤ c) && decide (c ≤ '9'))

/-- `p` matches the beginning of `l` character for character. -/
def leadsWith : List Char → List Char → Bool
  | [], _ => true
  | _ :: _, [] => false
  | p :: ps, c :: cs => p == c && leadsWith ps cs

/-- Longest leading run of `[a-f0-9]` characters. -/
def takeHexRun : List Char → List Char
  | [] => []
  | c :: rest => if isHexDigitLower c then c :: takeHexRun rest else []

/-- `re.search(r'subnet-[a-f0-9]+', msg)` (iac.py line 335): earliest
occurrence of `subnet-` followed by at least one `[a-f0-9]` character; the
match takes the maximal hex run. -/
def findSubnetToken : List Char → Option (List Char)
  | [] => none
  | c :: rest =>
    if leadsWith "subnet-".toList (c :: rest) then
      match (c :: rest).drop 7 with
      | d :: ds =>
        if isHexDigitLower d then some ("subnet-".toList ++ (d :: takeHexRun ds))
        else findSubnetToken rest
      | [] => findSubnetToken rest
    else findSubnetToken rest

/-- String form of the subnet-id extraction. -/
def parseSubnetId (msg : String) : Option String :=
  (findSubnetToken msg.toList).map (fun cs => String.mk cs)

/-- Python's `pat in msg` substring test. -/
def strHasSub (msg pat : String) : Bool :=
  go pat.toList msg.toList
where
  go (pat : List Char) : List Char → Bool
    | [] => pat.isEmpty
    | c :: rest => leadsWith pat (c :: rest) || go pat rest

/-- Provider response to one `create_load_balancer` call, as discriminated
by the `except` clause of `create_network_load_balancer` (iac.py lines
323-388): success with an ARN, a `DuplicateLoadBalancerName` error, an
`InvalidSubnet` error carrying the free-text message `str(e)`, or any other
`ClientError`. -/
inductive LBResponse where
  | created (arn : String)
  | duplicateName
  | invalidSubnet (msg : String)
  | otherError
deriving DecidableEq, Repr

/-- Result of the orchestrator: the returned ARN (or `None`), the
`self.final_subnets` field after the call (initially `[]`, set only on a
successful or duplicate-name outcome), and — as instrumentation for the
statements below — the trace of `Subnets` arguments of every
`create_load_balancer` attempt, outermost first. -/
abbrev NLBResult := Option String × List String × List (List String)

/-- `create_network_load_balancer` (iac.py lines 305-388).  The provider is
scripted: the n-th element of the first list answers the n-th
`create_load_balancer` attempt (an exhausted script behaves as a plain
provider failure), and the n-th element of the second list is the outcome of
the n-th `create_subnet` call (`none` = creation failed).  `existingLbArn`
is what `describe_load_balancers(Names=[NLB_NAME])` would return on the
duplicate-name path.  Everything else — message matching, offender parsing,
working-set construction, exclusion list, remediation order (existing
subnet, then `find_available_cidr`, then `suggest_subnet_cidr`) and the
recursive retry — follows the source line by line. -/
def create_network_load_balancer (inv : Inventory) (vpc_id : Option String)
    (existingLbArn : String) :
    List LBResponse → List (Option String) → List String → NLBResult
  | [], _, subnets => (none, [], [subnets])
  | .created arn :: _, _, subnets => (some arn, subnets, [subnets])
  | .duplicateName :: _, _, subnets => (some existingLbArn, subnets, [subnets])
  | .otherError :: _, _, subnets => (none, [], [subnets])
  | .invalidSubnet msg :: rest, subnetScript, subnets =>
    if vpc_id.isSome &&
        (strHasSub msg "Not enough IP space" ||
         strHasSub msg "at least 8 free IP addresses") then
      let problematic_subnets :=
        match parseSubnetId msg with
        | some sid => [sid]
        | none => []
      let working_subnets := subnets.filter (fun s => !problematic_subnets.contains s)
      let exclude_subnets := subnets ++ problematic_subnets
      match check_existing_subnet_space inv exclude_subnets with
      | some eid =>
        let r := create_network_load_balancer inv vpc_id existingLbArn rest
          subnetScript (working_subnets ++ [eid])
        (r.1, r.2.1, subnets :: r.2.2)
      | none =>
        match find_available_cidr inv 24 with
        | some _ =>
          match subnetScript with
          | some nid :: srest =>
            let r := create_network_load_balancer inv vpc_id existingLbArn rest
              srest (working_subnets ++ [nid])
            (r.1, r.2.1, subnets :: r.2.2)
          | none :: _ => (none, [], [subnets])
          | [] => (none, [], [subnets])
        | none =>
          match suggest_subnet_cidr inv with
          | some _ =>
            match subnetScript with
            | some nid :: srest =>
              let r := create_network_load_balancer inv vpc_id existingLbArn rest
                srest (working_subnets ++ [nid])
              (r.1, r.2.1, subnets :: r.2.2)
            | none :: _ => (none, [], [subnets])
            | [] => (none, [], [subnets])
          | none => (none, [], [subnets])
    else (none, [], [subnets])

/-- Step 5 of `deploy` (iac.py line 669):
`asg_subnets = self.final_subnets if self.final_subnets else subnets`. -/
def deploy_asg_subnets (final_subnets subnets : List String) : List String :=
  if final_subnets.isEmpty then subnets else final_subnets

/-- Provider response to one `create_target_group` call (iac.py lines
394-416). -/
inductive TGResponse where
  | created (arn : String)
  | duplicateName
  | otherError
deriving DecidableEq, Repr

/-- The exception handler of `create_target_group` (iac.py lines 408-417):
on `DuplicateTargetGroupName` the existing group is fetched by name and its
ARN returned; only other errors yield `None`. -/
def create_target_group (resp : TGResponse) (describeArn : String) : Option String :=
  match resp with
  | .created arn => some arn
  | .duplicateName => some describeArn
  | .otherError => none

/-- Provider response to one `create_auto_scaling_group` call (iac.py lines
468-501). -/
inductive ASGResponse where
  | created
  | alreadyExists
  | otherError
deriving DecidableEq, Repr

/-- `create_auto_scaling_group` (iac.py lines 448-501): fails when the
launch template is absent; otherwise an `AlreadyExists` error is treated
exactly like success. -/
def create_auto_scaling_group (templateFound : Bool) (resp : ASGResponse) : Bool :=
  if templateFound then
    match resp with
    | .created => true
    | .alreadyExists => true
    | .otherError => false
  else false

/-- Name-indexed registry of already-created resources: the black-box
provider of §6 of the spec (`create → ARN or duplicate-name error;
describe by name → the existing resource`). -/
structure Registry where
  entries : List (String × String)
deriving DecidableEq, Repr

/-- Describe-by-name against the registry. -/
def Registry.lookup (r : Registry) (n : String) : Option String :=
  (r.entries.find? (fun e => e.1 == n)).map (fun e => e.2)

/-- One provider `create_target_group(Name=n, ...)` call against the
registry: duplicate-name error when the name exists, otherwise the fresh
ARN is registered and returned. -/
def providerCreateNamed (r : Registry) (n fresh : String) : TGResponse × Registry :=
  match r.lookup n with
  | some _ => (.duplicateName, r)
  | none => (.created fresh, ⟨(n, fresh) :: r.entries⟩)

/-- `create_target_group` driven by the registry provider: the source's
handler applied to the provider's response, with the duplicate-name path
describing the existing group by name. -/
def ensure_target_group (r : Registry) (n fresh : String) : Option String × Registry :=
  let pr := providerCreateNamed r n fresh
  (create_target_group pr.1 ((pr.2.lookup n).getD ""), pr.2)

/-- Modelled from the spec (§4.3): the zone-selection policy as worded —
first available zone not already used, else the first available zone, and
`none` exactly for an empty zone list.  Used only to compare `pick_az`
against the spec's words. -/
def zoneSelectSpec (all_azs existing_azs : List String) : Option String :=
  match all_azs with
  | [] => none
  | a :: t =>
    match (a :: t).filter (fun z => !existing_azs.contains z) with
    | z :: _ => some z
    | [] => some a

/-- Concrete inventory: a single /24 VPC block, no subnets, one zone. -/
def invSmall : Inventory :=
  { vpcInfo := some ⟨⟨0, 24⟩, []⟩, subnets := [], zones := ["za"] }

/-- Concrete inventory: the VPC cannot be described (provider failure /
not found). -/
def invNotFound : Inventory :=
  { vpcInfo := none, subnets := [], zones := ["za"] }

/-- Concrete inventory: the VPC exists but its single /24 block is fully
covered by an existing subnet, so every candidate size is exhausted. -/
def invExhausted : Inventory :=
  { vpcInfo := some ⟨⟨0, 24⟩, []⟩
    subnets := [⟨"subnet-ffff", ⟨0, 24⟩, "za", 0⟩]
    zones := ["za"] }

/-- Concrete inventory for the retry scenarios: two existing subnets, both
reported by `describe_subnets` with 10 free addresses. -/
def invRetry : Inventory :=
  { vpcInfo := some ⟨⟨0, 16⟩, []⟩
    subnets := [⟨"subnet-0a1", ⟨0, 24⟩, "za", 10⟩,
                ⟨"subnet-0c3", ⟨256, 24⟩, "zb", 10⟩]
    zones := ["za", "zb"] }

/-- Concrete inventory whose first listed subnet sits in the same zone as
the working set while the second sits in a different zone; both have 20
free addresses. -/
def invSameAzFirst : Inventory :=
  { vpcInfo := some ⟨⟨0, 16⟩, []⟩
    subnets := [⟨"subnet-aaa1", ⟨0, 24⟩, "us-east-1a", 20⟩,
                ⟨"subnet-bbb2", ⟨256, 24⟩, "us-east-1b", 20⟩]
    zones := ["us-east-1a", "us-east-1b"] }

end Iac


namespace Iac

/-- Every range produced by `subnetsOf b p` lies entirely inside `b` and
has prefix length `p`. -/
theorem subnetsOf_mem {b : Cidr} {p : Nat} {c : Cidr} (h : c ∈ subnetsOf b p) :
    cidrWithin c b = true ∧ c.plen = p := by
  unfold subnetsOf at h
  split at h
  · rename_i hv
    obtain ⟨hbp, hp32⟩ := hv
    simp only [List.mem_map, List.mem_range] at h
    obtain ⟨i, hi, rfl⟩ := h
    refine ⟨?_, rfl⟩
    simp only [cidrWithin, Cidr.size, Bool.and_eq_true, decide_eq_true_eq]
    constructor
    · exact Nat.le_add_right _ _
    · have hexp : (p - b.plen) + (32 - p) = 32 - b.plen := by omega
      have h1 : (i + 1) * 2 ^ (32 - p) ≤ 2 ^ (p - b.plen) * 2 ^ (32 - p) :=
        Nat.mul_le_mul_right _ hi
      have h2 : 2 ^ (p - b.plen) * 2 ^ (32 - p) = 2 ^ (32 - b.plen) := by
        rw [← Nat.pow_add, hexp]
      rw [h2, Nat.succ_mul] at h1
      linarith
  · simp at h

/-- Soundness of one candidate scan: a hit is a member of the candidate
list that overlaps no used network. -/
theorem firstFit_eq_some {cands used : List Cidr} {eaz zones : List String}
    {c : Cidr} {az : String} (h : firstFit cands used eaz zones = some (c, az)) :
    c ∈ cands ∧ used.any (fun u => cidrOverlaps c u) = false := by
  obtain ⟨x, hx, hfx⟩ := List.exists_of_findSome?_eq_some h
  by_cases hov : used.any (fun u => cidrOverlaps x u) = true
  · rw [if_pos hov] at hfx; cases hfx
  · rw [if_neg hov] at hfx
    cases hpz : pick_az zones eaz with
    | none => rw [hpz] at hfx; cases hfx
    | some az' =>
      rw [hpz] at hfx
      simp only [Option.some.injEq, Prod.mk.injEq] at hfx
      obtain ⟨rfl, rfl⟩ := hfx
      exact ⟨hx, Bool.not_eq_true _ ▸ hov⟩

/-- A scan over a list with no hit on any candidate yields nothing. -/
theorem firstFit_eq_none {cands used : List Cidr} {eaz zones : List String}
    (h : ∀ c ∈ cands, used.any (fun u => cidrOverlaps c u) = true) :
    firstFit cands used eaz zones = none := by
  unfold firstFit
  rw [List.findSome?_eq_none_iff]
  intro x hx
  rw [if_pos (h x hx)]

/-- If some candidate is free and a zone exists, the scan succeeds with a
member of the candidate list. -/
theorem firstFit_isSome {cands used : List Cidr} {eaz zones : List String}
    (hex : ∃ c ∈ cands, used.any (fun u => cidrOverlaps c u) = false)
    (hz : zones ≠ []) :
    ∃ c az, firstFit cands used eaz zones = some (c, az) ∧ c ∈ cands := by
  obtain ⟨c0, hc0, hov0⟩ := hex
  have hiss : (firstFit cands used eaz zones).isSome := by
    unfold firstFit
    rw [List.findSome?_isSome_iff]
    refine ⟨c0, hc0, ?_⟩
    rw [if_neg (by simp [hov0])]
    cases zones with
    | nil => exact absurd rfl hz
    | cons a t => simp [pick_az]
  obtain ⟨⟨c, az⟩, hr⟩ := Option.isSome_iff_exists.mp hiss
  exact ⟨c, az, hr, (firstFit_eq_some hr).1⟩

/-- Unpacks a successful `find_available_cidr` into the block, size and
candidate membership that produced it. -/
theorem find_available_cidr_inv {inv : Inventory} {s : Nat} {c : Cidr}
    {az : String} (h : find_available_cidr inv s = some (c, az)) :
    ∃ vi, inv.vpcInfo = some vi ∧
      ∃ b ∈ vpcCidrsOf vi, ∃ p ∈ subnet_sizes s, c ∈ subnetsOf b p ∧
        (inv.subnets.map (fun r => r.cidr)).any (fun u => cidrOverlaps c u) = false := by
  cases hv : inv.vpcInfo with
  | none => unfold find_available_cidr at h; rw [hv] at h; cases h
  | some vi =>
    unfold find_available_cidr at h
    rw [hv] at h
    simp only at h
    obtain ⟨b, hb, hfb⟩ := List.exists_of_findSome?_eq_some h
    obtain ⟨p, hp, hgp⟩ := List.exists_of_findSome?_eq_some hfb
    refine ⟨vi, rfl, b, hb, p, hp, ?_⟩
    cases hff : firstFit (subnetsOf b p) (inv.subnets.map (fun r => r.cidr))
        (inv.subnets.map (fun r => r.az)) inv.zones with
    | some r =>
      rw [hff] at hgp
      injection hgp with hr
      rw [hr] at hff
      exact firstFit_eq_some hff
    | none =>
      rw [hff] at hgp
      have h2 := firstFit_eq_some hgp
      exact ⟨List.mem_reverse.mp h2.1, h2.2⟩

/-- Unpacks a successful `suggest_subnet_cidr` into the block, size and
candidate membership that produced it. -/
theorem suggest_subnet_cidr_inv {inv : Inventory} {c : Cidr} {az : String}
    (h : suggest_subnet_cidr inv = some (c, az)) :
    ∃ vi, inv.vpcInfo = some vi ∧
      ∃ b ∈ vpcCidrsOf vi, ∃ p, c ∈ subnetsOf b p ∧
        (inv.subnets.map (fun r => r.cidr)).any (fun u => cidrOverlaps c u) = false := by
  cases hv : inv.vpcInfo with
  | none => unfold suggest_subnet_cidr at h; rw [hv] at h; cases h
  | some vi =>
    unfold suggest_subnet_cidr at h
    rw [hv] at h
    simp only at h
    cases hpz : pick_az inv.zones (inv.subnets.map (fun r => r.az)) with
    | none => rw [hpz] at h; cases h
    | some az0 =>
      rw [hpz] at h
      obtain ⟨b, hb, hfb⟩ := List.exists_of_findSome?_eq_some h
      refine ⟨vi, rfl, b, hb, ?_⟩
      cases hf24 : (lastN 20 (subnetsOf b 24)).reverse.find?
          (fun x => !(inv.subnets.map (fun r => r.cidr)).any (fun u => cidrOverlaps x u)) with
      | some c0 =>
        rw [hf24] at hfb
        simp only [Option.some.injEq, Prod.mk.injEq] at hfb
        obtain ⟨rfl, rfl⟩ := hfb
        refine ⟨24, ?_, ?_⟩
        · exact List.mem_of_mem_drop (List.mem_reverse.mp (List.mem_of_find?_eq_some hf24))
        · have := List.find?_some hf24
          simpa using this
      | none =>
        rw [hf24] at hfb
        obtain ⟨p, hp, hgp⟩ := List.exists_of_findSome?_eq_some hfb
        cases hfp : (lastN 10 (subnetsOf b p)).reverse.find?
            (fun x => !(inv.subnets.map (fun r => r.cidr)).any (fun u => cidrOverlaps x u)) with
        | none => rw [hfp] at hgp; cases hgp
        | some c0 =>
          rw [hfp] at hgp
          simp only [Option.map_some', Option.some.injEq, Prod.mk.injEq] at hgp
          obtain ⟨rfl, rfl⟩ := hgp
          refine ⟨p, ?_, ?_⟩
          · exact List.mem_of_mem_drop (List.mem_reverse.mp (List.mem_of_find?_eq_some hfp))
          · have := List.find?_some hfp
            simpa using this

/-- C1: any `(CIDR, zone)` candidate returned by `find_available_cidr` —
and likewise by the advisory `suggest_subnet_cidr` — overlaps the CIDR of
no existing subnet of the inventory and lies entirely within one of the
VPC's declared (primary or associated secondary) CIDR blocks. -/
theorem C1_allocator_candidates_valid :
    (∀ (inv : Inventory) (s : Nat) (c : Cidr) (az : String),
      find_available_cidr inv s = some (c, az) →
      (∀ r ∈ inv.subnets, cidrOverlaps c r.cidr = false) ∧
      ∃ vi, inv.vpcInfo = some vi ∧ ∃ b ∈ vpcCidrsOf vi, cidrWithin c b = true) ∧
    (∀ (inv : Inventory) (c : Cidr) (az : String),
      suggest_subnet_cidr inv = some (c, az) →
      (∀ r ∈ inv.subnets, cidrOverlaps c r.cidr = false) ∧
      ∃ vi, inv.vpcInfo = some vi ∧ ∃ b ∈ vpcCidrsOf vi, cidrWithin c b = true) := by
  constructor
  · intro inv s c az h
    obtain ⟨vi, hv, b, hb, p, _, hc, hov⟩ := find_available_cidr_inv h
    refine ⟨?_, vi, hv, b, hb, (subnetsOf_mem hc).1⟩
    intro r hr
    have hall := List.any_eq_false.mp hov
    have := hall _ (List.mem_map_of_mem (fun x => x.cidr) hr)
    simpa using this
  · intro inv c az h
    obtain ⟨vi, hv, b, hb, p, hc, hov⟩ := suggest_subnet_cidr_inv h
    refine ⟨?_, vi, hv, b, hb, (subnetsOf_mem hc).1⟩
    intro r hr
    have hall := List.any_eq_false.mp hov
    have := hall _ (List.mem_map_of_mem (fun x => x.cidr) hr)
    simpa using this

/-- Witness for C1 at a concrete inventory: both allocator entry points
return `0.0.0.0/24` in zone `za`, and the theorem's conclusions hold
there. -/
theorem C1_allocator_candidates_valid_witness :
    (find_available_cidr invSmall 24 = some ((⟨0, 24⟩ : Cidr), "za")) ∧
    ((∀ r ∈ invSmall.subnets, cidrOverlaps ⟨0, 24⟩ r.cidr = false) ∧
      ∃ vi, invSmall.vpcInfo = some vi ∧
        ∃ b ∈ vpcCidrsOf vi, cidrWithin (⟨0, 24⟩ : Cidr) b = true) ∧
    (suggest_subnet_cidr invSmall = some ((⟨0, 24⟩ : Cidr), "za")) ∧
    ((∀ r ∈ invSmall.subnets, cidrOverlaps ⟨0, 24⟩ r.cidr = false) ∧
      ∃ vi, invSmall.vpcInfo = some vi ∧
        ∃ b ∈ vpcCidrsOf vi, cidrWithin (⟨0, 24⟩ : Cidr) b = true) :=
  ⟨by decide, C1_allocator_candidates_valid.1 invSmall 24 ⟨0, 24⟩ "za" (by decide),
   by decide, C1_allocator_candidates_valid.2 invSmall ⟨0, 24⟩ "za" (by decide)⟩

/-- `findSome?` hits at the head when the head already produces a value. -/
theorem findSome?_cons_eq_some {f : α → Option β} {a : α} {l : List α} {b : β}
    (h : f a = some b) : List.findSome? f (a :: l) = some b := by
  rw [List.findSome?_cons_of_isSome l (by simp [h])]
  exact h

/-- A fold whose step only ever appends returns an extension of its
accumulator. -/
theorem foldl_acc_extends {α β : Type} (f : List α → β → List α)
    (hf : ∀ acc a, ∃ u, f acc a = acc ++ u) (l : List β) :
    ∀ acc, ∃ t, List.foldl f acc l = acc ++ t := by
  induction l with
  | nil => intro acc; exact ⟨[], by simp⟩
  | cons a l ih =>
    intro acc
    obtain ⟨u, hu⟩ := hf acc a
    obtain ⟨t, ht⟩ := ih (f acc a)
    exact ⟨u ++ t, by rw [List.foldl_cons, ht, hu, List.append_assoc]⟩

/-- The primary CIDR block always heads the `vpc_cidrs` list. -/
theorem vpcCidrsOf_cons (vi : VpcInfo) : ∃ t, vpcCidrsOf vi = vi.cidrBlock :: t := by
  have hf : ∀ (acc : List Cidr) (a : CidrAssoc), ∃ u,
      (if a.state = "associated" then
         match a.cidrBlock with
         | some c => if acc.contains c then acc else acc ++ [c]
         | none => acc
       else acc) = acc ++ u := by
    intro acc a
    split
    · cases a.cidrBlock with
      | none => exact ⟨[], by simp⟩
      | some c =>
        by_cases hc : acc.contains c = true
        · refine ⟨[], ?_⟩
          show (if acc.contains c = true then acc else acc ++ [c]) = acc ++ []
          rw [if_pos hc, List.append_nil]
        · refine ⟨[c], ?_⟩
          show (if acc.contains c = true then acc else acc ++ [c]) = acc ++ [c]
          rw [if_neg hc]
    · exact ⟨[], by simp⟩
  obtain ⟨t, ht⟩ := foldl_acc_extends _ hf vi.assocs [vi.cidrBlock]
  refine ⟨t, ?_⟩
  rw [vpcCidrsOf, ht]
  rfl

/-- The requested size always heads the candidate-size list. -/
theorem subnet_sizes_cons (s : Nat) : ∃ ts, subnet_sizes s = s :: ts := by
  unfold subnet_sizes
  split
  · exact ⟨[25, 26, 27], rfl⟩
  · exact ⟨[], rfl⟩

/-- C7 counterexample: on the concrete exhausted inventory (a /24 block
fully covered by an existing subnet, so no block/size combination has
room) `find_available_cidr` returns the very same value — `none` — that it
returns when the VPC cannot be described at all; no caller can tell the
two outcomes apart from the returned value, so the claimed distinguishable
"exhausted" outcome does not exist. -/
theorem C7_counterexample_exhausted_equals_failure :
    find_available_cidr invExhausted 24 = none ∧
    find_available_cidr invNotFound 24 = none ∧
    find_available_cidr invExhausted 24 = find_available_cidr invNotFound 24 := by
  decide

/-- C7 (amended): when the VPC lookup fails `find_available_cidr` returns
`none`, and when every candidate of every tried size in every declared
block overlaps an existing subnet it also returns `none` — the exhausted
outcome is reported only through log text and is not distinguishable from
the failure outcome in the returned value. -/
theorem C7_exhaustion_and_failure_both_none :
    ∀ (inv : Inventory) (s : Nat),
      (inv.vpcInfo = none → find_available_cidr inv s = none) ∧
      (∀ vi, inv.vpcInfo = some vi →
        (∀ b ∈ vpcCidrsOf vi, ∀ p ∈ subnet_sizes s, ∀ c ∈ subnetsOf b p,
          (inv.subnets.map (fun r => r.cidr)).any (fun u => cidrOverlaps c u) = true) →
        find_available_cidr inv s = none) := by
  intro inv s
  constructor
  · intro hv
    unfold find_available_cidr
    rw [hv]
  · intro vi hv hall
    unfold find_available_cidr
    rw [hv]
    simp only
    rw [List.findSome?_eq_none_iff]
    intro b hb
    rw [List.findSome?_eq_none_iff]
    intro p hp
    have h1 : firstFit (subnetsOf b p) (inv.subnets.map (fun r => r.cidr))
        (inv.subnets.map (fun r => r.az)) inv.zones = none :=
      firstFit_eq_none (fun c hc => hall b hb p hp c hc)
    have h2 : firstFit (subnetsOf b p).reverse (inv.subnets.map (fun r => r.cidr))
        (inv.subnets.map (fun r => r.az)) inv.zones = none :=
      firstFit_eq_none (fun c hc => hall b hb p hp c (List.mem_reverse.mp hc))
    simp [h1, h2]

/-- Witness for the amended C7 at concrete inventories: the failure branch
at `invNotFound` and the exhaustion branch at `invExhausted`. -/
theorem C7_exhaustion_and_failure_both_none_witness :
    (invNotFound.vpcInfo = none ∧ find_available_cidr invNotFound 24 = none) ∧
    (invExhausted.vpcInfo = some ⟨⟨0, 24⟩, []⟩ ∧
      (∀ b ∈ vpcCidrsOf ⟨⟨0, 24⟩, []⟩, ∀ p ∈ subnet_sizes 24, ∀ c ∈ subnetsOf b p,
        (invExhausted.subnets.map (fun r => r.cidr)).any
          (fun u => cidrOverlaps c u) = true) ∧
      find_available_cidr invExhausted 24 = none) :=
  ⟨⟨rfl, (C7_exhaustion_and_failure_both_none invNotFound 24).1 rfl⟩,
   ⟨rfl, by decide,
    (C7_exhaustion_and_failure_both_none invExhausted 24).2 ⟨⟨0, 24⟩, []⟩ rfl
      (by decide)⟩⟩

/-- C8: whatever `find_available_cidr` returns has a prefix length drawn
from the size list `[requested, 25, 26, 27]` when the requested size is
`≥ 24` (the conventional default, compared as prefix lengths exactly as
the source's `subnet_size >= 24`), and is exactly the requested size when
the requested size is `< 24`; moreover the requested size is tried first —
if the primary block has a free candidate of the requested size and any
zone is available, the result has the requested size. -/
theorem C8_candidate_size_policy :
    (∀ (inv : Inventory) (s : Nat) (c : Cidr) (az : String),
      find_available_cidr inv s = some (c, az) →
      c.plen ∈ subnet_sizes s ∧ (s < 24 → c.plen = s) ∧
        (24 ≤ s → c.plen ∈ [s, 25, 26, 27])) ∧
    (∀ (inv : Inventory) (s : Nat) (vi : VpcInfo), inv.vpcInfo = some vi →
      inv.zones ≠ [] →
      (∃ c0 ∈ subnetsOf vi.cidrBlock s,
        (inv.subnets.map (fun r => r.cidr)).any (fun u => cidrOverlaps c0 u) = false) →
      ∃ c az, find_available_cidr inv s = some (c, az) ∧ c.plen = s) := by
  constructor
  · intro inv s c az h
    obtain ⟨vi, hv, b, hb, p, hp, hc, hov⟩ := find_available_cidr_inv h
    have hpl := (subnetsOf_mem hc).2
    subst hpl
    refine ⟨hp, ?_, ?_⟩
    · intro hs
      unfold subnet_sizes at hp
      rw [if_neg (by omega)] at hp
      simpa using hp
    · intro hs
      unfold subnet_sizes at hp
      rwa [if_pos hs] at hp
  · intro inv s vi hv hz hex
    obtain ⟨t, ht⟩ := vpcCidrsOf_cons vi
    obtain ⟨ts, hts⟩ := subnet_sizes_cons s
    obtain ⟨c, az, hff, hc⟩ :=
      @firstFit_isSome (subnetsOf vi.cidrBlock s) (inv.subnets.map (fun r => r.cidr))
        (inv.subnets.map (fun r => r.az)) inv.zones hex hz
    refine ⟨c, az, ?_, (subnetsOf_mem hc).2⟩
    have hf1 : (match firstFit (subnetsOf vi.cidrBlock s)
          (inv.subnets.map (fun r => r.cidr)) (inv.subnets.map (fun r => r.az))
          inv.zones with
        | some r => some r
        | none => firstFit (subnetsOf vi.cidrBlock s).reverse
            (inv.subnets.map (fun r => r.cidr)) (inv.subnets.map (fun r => r.az))
            inv.zones) = some (c, az) := by
      rw [hff]
    unfold find_available_cidr
    rw [hv]
    simp only
    rw [ht]
    refine findSome?_cons_eq_some ?_
    rw [hts]
    exact findSome?_cons_eq_some hf1

/-- Witness for C8 at a concrete inventory: the /24 VPC with no subnets:
the returned candidate's size is the requested 24, both as predicted by the
membership conjunct and produced by the order conjunct. -/
theorem C8_candidate_size_policy_witness :
    (find_available_cidr invSmall 24 = some ((⟨0, 24⟩ : Cidr), "za")) ∧
    (Cidr.plen ⟨0, 24⟩ ∈ subnet_sizes 24 ∧ (24 < 24 → Cidr.plen ⟨0, 24⟩ = 24) ∧
      (24 ≤ 24 → Cidr.plen ⟨0, 24⟩ ∈ [24, 25, 26, 27])) ∧
    (invSmall.vpcInfo = some ⟨⟨0, 24⟩, []⟩ ∧ invSmall.zones ≠ [] ∧
      (∃ c0 ∈ subnetsOf (⟨0, 24⟩ : Cidr) 24,
        (invSmall.subnets.map (fun r => r.cidr)).any
          (fun u => cidrOverlaps c0 u) = false) ∧
      ∃ c az, find_available_cidr invSmall 24 = some (c, az) ∧ c.plen = 24) :=
  ⟨by decide,
   C8_candidate_size_policy.1 invSmall 24 ⟨0, 24⟩ "za" (by decide),
   rfl, by decide, by decide,
   C8_candidate_size_policy.2 invSmall 24 ⟨⟨0, 24⟩, []⟩ rfl (by decide) (by decide)⟩

/-- C9: the zone pick shared by `find_available_cidr` and
`suggest_subnet_cidr` equals the spec's policy — first available zone not
already hosting a subnet, else the first available zone — and yields no
zone exactly when the provider reports zero available zones. -/
theorem C9_zone_selection_policy :
    ∀ (all_azs existing_azs : List String),
      pick_az all_azs existing_azs = zoneSelectSpec all_azs existing_azs ∧
      (pick_az all_azs existing_azs = none ↔ all_azs = []) := by
  intro azs used
  constructor
  · cases azs with
    | nil => rfl
    | cons a t =>
      have h1 : pick_az (a :: t) used =
          some (((a :: t).find? (fun z => !used.contains z)).getD a) := rfl
      have h2 : zoneSelectSpec (a :: t) used =
          (match (a :: t).filter (fun z => !used.contains z) with
           | z :: _ => some z
           | [] => some a) := rfl
      rw [h1, h2, ← List.filter_head?]
      cases hfl : (a :: t).filter (fun z => !used.contains z) with
      | nil => rfl
      | cons z zs => rfl
  · cases azs with
    | nil => simp [pick_az]
    | cons a t => simp [pick_az]

/-- The first recorded attempt of the orchestrator is always the subnet
list it was called with. -/
theorem cnlb_trace_head (inv : Inventory) (v : Option String) (ex : String)
    (script : List LBResponse) (ss : List (Option String)) (subs : List String) :
    ((create_network_load_balancer inv v ex script ss subs).2.2).head? = some subs := by
  cases script with
  | nil => rfl
  | cons r rest =>
    cases r with
    | created arn => rfl
    | duplicateName => rfl
    | otherError => rfl
    | invalidSubnet msg =>
      unfold create_network_load_balancer
      repeat' (first | split | dsimp only)
      all_goals rfl

/-- Gluing step for the retry branches: pushing the current attempt onto a
successful recursive result preserves "final set = last attempt" and, once
at least two attempts exist, the non-emptiness of the final set. -/
theorem glue_last {r : NLBResult} {W subs : List String}
    (hhead : r.2.2.head? = some W) (hW : W ≠ [])
    (hmain : r.2.1 = r.2.2.getLast?.getD [] ∧ (2 ≤ r.2.2.length → r.2.1 ≠ [])) :
    r.2.1 = ((subs :: r.2.2).getLast?).getD [] ∧
    (2 ≤ (subs :: r.2.2).length → r.2.1 ≠ []) := by
  obtain ⟨h1, h2⟩ := hmain
  cases htr : r.2.2 with
  | nil => rw [htr] at hhead; cases hhead
  | cons h0 t0 =>
    rw [htr] at h1 h2 hhead
    have hh0 : h0 = W := by
      simpa using hhead
    rw [List.getLast?_cons_cons]
    refine ⟨h1, fun _ => ?_⟩
    cases t0 with
    | nil =>
      rw [h1]
      simpa [List.getLast?, hh0] using hW
    | cons h1' t1 =>
      exact h2 (by simp)

/-- On a successful (`some` ARN) outcome, `self.final_subnets` equals the
subnet list of the last recorded attempt, and is non-empty whenever at
least one remediation retry happened. -/
theorem cnlb_success_final (inv : Inventory) (v : Option String) (ex : String) :
    ∀ (script : List LBResponse) (ss : List (Option String)) (subs : List String),
      (create_network_load_balancer inv v ex script ss subs).1.isSome = true →
      (create_network_load_balancer inv v ex script ss subs).2.1 =
        ((create_network_load_balancer inv v ex script ss subs).2.2).getLast?.getD [] ∧
      (2 ≤ ((create_network_load_balancer inv v ex script ss subs).2.2).length →
        (create_network_load_balancer inv v ex script ss subs).2.1 ≠ []) := by
  intro script
  induction script with
  | nil =>
    intro ss subs h
    simp [create_network_load_balancer] at h
  | cons r rest ih =>
    intro ss subs h
    cases r with
    | created arn =>
      constructor
      · simp [create_network_load_balancer, List.getLast?]
      · intro h2
        simp [create_network_load_balancer] at h2
    | duplicateName =>
      constructor
      · simp [create_network_load_balancer, List.getLast?]
      · intro h2
        simp [create_network_load_balancer] at h2
    | otherError =>
      simp [create_network_load_balancer] at h
    | invalidSubnet msg =>
      revert h
      unfold create_network_load_balancer
      repeat' (first | split | dsimp only)
      all_goals intro h
      all_goals
        first
        | exact glue_last (cnlb_trace_head _ _ _ _ _ _) (by simp) (ih _ _ h)
        | simp at h

/-- An empty problematic list removes nothing from the working set. -/
theorem filter_not_contains_nil (subs : List String) :
    subs.filter (fun s => !([] : List String).contains s) = subs := by
  simp [List.contains]

/-- C2 counterexample: a concrete run in which every
`InsufficientAddressSpace` response names a distinct offending subnet
(`subnet-0a1`, then `subnet-0c3`) yet the third creation attempt uses the
same working set `{subnet-0a1, subnet-0b2}` as the first attempt: the
exclusion list is rebuilt from the current attempt only, so the previously
offending `subnet-0a1` is re-admitted by `check_existing_subnet_space`. -/
theorem C2_counterexample_same_set_retried :
    create_network_load_balancer invRetry (some "vpc-1") "lb-old"
        [.invalidSubnet "Not enough IP space in subnet-0a1",
         .invalidSubnet "Not enough IP space in subnet-0c3",
         .created "arn-final"] []
        ["subnet-0a1", "subnet-0b2"] =
      (some "arn-final", ["subnet-0b2", "subnet-0a1"],
        [["subnet-0a1", "subnet-0b2"], ["subnet-0b2", "subnet-0c3"],
         ["subnet-0b2", "subnet-0a1"]]) ∧
    (["subnet-0a1", "subnet-0b2"] : List String).Perm
      ["subnet-0b2", "subnet-0a1"] ∧
    ("subnet-0a1" : String) ≠ "subnet-0c3" :=
  ⟨by decide, List.Perm.swap "subnet-0b2" "subnet-0a1" [], by decide⟩

/-- C2 (amended): the orchestrator always terminates, and the number of
creation attempts is bounded by one more than the length of the provider's
response sequence (each retry consumes exactly one response); the
no-repetition part of the original claim fails — see the counterexample —
because the remediation search excludes only the current attempt's
subnets, not every previously tried one. -/
theorem C2_retry_attempts_bounded :
    ∀ (inv : Inventory) (v : Option String) (ex : String)
      (script : List LBResponse) (ss : List (Option String)) (subs : List String),
      ((create_network_load_balancer inv v ex script ss subs).2.2).length ≤
        script.length + 1 := by
  intro inv v ex script
  induction script with
  | nil => intro ss subs; simp [create_network_load_balancer]
  | cons r rest ih =>
    intro ss subs
    cases r with
    | created arn => simp [create_network_load_balancer]
    | duplicateName => simp [create_network_load_balancer]
    | otherError => simp [create_network_load_balancer]
    | invalidSubnet msg =>
      unfold create_network_load_balancer
      repeat' (first | split | dsimp only)
      all_goals simp only [List.length_cons, List.length_nil]
      all_goals first
        | omega
        | exact Nat.add_le_add_right (ih _ _) 1

/-- C3: whenever load-balancer creation ends in success, the recorded
`final_subnets` equal the subnet list of the last (successful) creation
attempt, and whenever remediation occurred (two or more attempts) the
deployment sequencer's step-5 selection passes exactly that final set —
not the caller's original input — to autoscaling-group creation. -/
theorem C3_asg_placement_uses_final_working_set :
    ∀ (inv : Inventory) (v : Option String) (ex : String)
      (script : List LBResponse) (ss : List (Option String)) (subs : List String)
      (arn : String),
      (create_network_load_balancer inv v ex script ss subs).1 = some arn →
      ((create_network_load_balancer inv v ex script ss subs).2.1 =
        ((create_network_load_balancer inv v ex script ss subs).2.2).getLast?.getD []) ∧
      (2 ≤ ((create_network_load_balancer inv v ex script ss subs).2.2).length →
        deploy_asg_subnets (create_network_load_balancer inv v ex script ss subs).2.1
            subs =
          (create_network_load_balancer inv v ex script ss subs).2.1) := by
  intro inv v ex script ss subs arn h
  have hs : (create_network_load_balancer inv v ex script ss subs).1.isSome = true := by
    rw [h]; rfl
  obtain ⟨h1, h2⟩ := cnlb_success_final inv v ex script ss subs hs
  refine ⟨h1, fun hlen => ?_⟩
  have hne := h2 hlen
  unfold deploy_asg_subnets
  rw [if_neg (by simpa [List.isEmpty_iff] using hne)]

/-- Witness for C3: one remediation (offender `subnet-0a1` replaced by the
existing `subnet-0c3`), then success; the final set is the last attempt's
`[subnet-0b2, subnet-0c3]` and step 5 selects it over the original
input. -/
theorem C3_asg_placement_uses_final_working_set_witness :
    ((create_network_load_balancer invRetry (some "vpc-1") "lb-old"
        [.invalidSubnet "Not enough IP space in subnet-0a1", .created "arn-2"] []
        ["subnet-0a1", "subnet-0b2"]).1 = some "arn-2") ∧
    (((create_network_load_balancer invRetry (some "vpc-1") "lb-old"
        [.invalidSubnet "Not enough IP space in subnet-0a1", .created "arn-2"] []
        ["subnet-0a1", "subnet-0b2"]).2.1 =
      ((create_network_load_balancer invRetry (some "vpc-1") "lb-old"
        [.invalidSubnet "Not enough IP space in subnet-0a1", .created "arn-2"] []
        ["subnet-0a1", "subnet-0b2"]).2.2).getLast?.getD []) ∧
    (2 ≤ ((create_network_load_balancer invRetry (some "vpc-1") "lb-old"
        [.invalidSubnet "Not enough IP space in subnet-0a1", .created "arn-2"] []
        ["subnet-0a1", "subnet-0b2"]).2.2).length →
      deploy_asg_subnets
          (create_network_load_balancer invRetry (some "vpc-1") "lb-old"
            [.invalidSubnet "Not enough IP space in subnet-0a1", .created "arn-2"] []
            ["subnet-0a1", "subnet-0b2"]).2.1 ["subnet-0a1", "subnet-0b2"] =
        (create_network_load_balancer invRetry (some "vpc-1") "lb-old"
          [.invalidSubnet "Not enough IP space in subnet-0a1", .created "arn-2"] []
          ["subnet-0a1", "subnet-0b2"]).2.1)) :=
  ⟨by decide,
   C3_asg_placement_uses_final_working_set invRetry (some "vpc-1") "lb-old"
     [.invalidSubnet "Not enough IP space in subnet-0a1", .created "arn-2"] []
     ["subnet-0a1", "subnet-0b2"] "arn-2" (by decide)⟩

/-- C10: on a duplicate-name signal the orchestrator returns the ARN that
`describe_load_balancers(Names=[NLB_NAME])` reports for the existing load
balancer and records the caller-supplied subnet list, unchanged, as the
final subnet set — irrespective of the subnets the pre-existing load
balancer is actually attached to. -/
theorem C10_duplicate_name_keeps_caller_subnets :
    ∀ (inv : Inventory) (v : Option String) (ex : String)
      (rest : List LBResponse) (ss : List (Option String)) (subs : List String),
      create_network_load_balancer inv v ex (.duplicateName :: rest) ss subs =
        (some ex, subs, [subs]) := by
  intro inv v ex rest ss subs
  rfl

/-- C4 counterexample: the `InsufficientAddressSpace` message
`"Not enough IP space"` contains no subnet-id-shaped token, yet every
subnet of the current set (`subnet-0a1`, `subnet-0b2`) is carried
unchanged into the retried attempt's working set — the whole-set-suspect
treatment only adds the current set to the search exclusion list, it does
not drop any of its members. -/
theorem C4_counterexample_current_set_carried :
    parseSubnetId "Not enough IP space" = none ∧
    create_network_load_balancer invRetry (some "vpc-1") "lb-old"
        [.invalidSubnet "Not enough IP space", .created "arn-3"] []
        ["subnet-0a1", "subnet-0b2"] =
      (some "arn-3", ["subnet-0a1", "subnet-0b2", "subnet-0c3"],
        [["subnet-0a1", "subnet-0b2"],
         ["subnet-0a1", "subnet-0b2", "subnet-0c3"]]) ∧
    ("subnet-0a1" : String) ∈
      ["subnet-0a1", "subnet-0b2", "subnet-0c3"] ∧
    ("subnet-0b2" : String) ∈
      ["subnet-0a1", "subnet-0b2", "subnet-0c3"] := by
  refine ⟨by decide, by decide, by decide, by decide⟩

/-- C4 (amended): when the error message contains no subnet-id-shaped
token, no subnet is identified as problematic, so the retried attempt's
subnet list is exactly the current set with one remediation subnet
appended — every current subnet is carried unchanged; the current set is
treated as suspect only in that it is excluded from the existing-subnet
search. -/
theorem C4_unparsable_message_keeps_current_set :
    ∀ (inv : Inventory) (v : Option String) (ex : String) (msg : String)
      (rest : List LBResponse) (ss : List (Option String)) (subs : List String)
      (t : List String),
      parseSubnetId msg = none →
      (((create_network_load_balancer inv v ex (.invalidSubnet msg :: rest) ss
          subs).2.2).tail).head? = some t →
      ∃ x, t = subs ++ [x] := by
  intro inv v ex msg rest ss subs t hp
  unfold create_network_load_balancer
  rw [hp]
  repeat' (first | split | dsimp only)
  all_goals intro h
  all_goals (try simp only [List.tail_cons] at h)
  all_goals first
    | (rw [cnlb_trace_head inv v ex rest _ _] at h
       injection h with h
       exact ⟨_, by rw [← h, filter_not_contains_nil]⟩)
    | (rw [cnlb_trace_head inv v ex rest _ _] at h
       injection h with h
       exact ⟨_, h.symm⟩)
    | (simp at h; done)
    | (simp_all; done)

/-- Witness for the amended C4 at the concrete no-token scenario: the
second attempt's subnet list extends the full current set by the found
existing subnet `subnet-0c3`. -/
theorem C4_unparsable_message_keeps_current_set_witness :
    (parseSubnetId "Not enough IP space" = none) ∧
    ((((create_network_load_balancer invRetry (some "vpc-1") "lb-old"
        [.invalidSubnet "Not enough IP space", .created "arn-3"] []
        ["subnet-0a1", "subnet-0b2"]).2.2).tail).head? =
      some ["subnet-0a1", "subnet-0b2", "subnet-0c3"]) ∧
    (∃ x, ["subnet-0a1", "subnet-0b2", "subnet-0c3"] =
      ["subnet-0a1", "subnet-0b2"] ++ [x]) :=
  ⟨by decide, by decide,
   C4_unparsable_message_keeps_current_set invRetry (some "vpc-1") "lb-old"
     "Not enough IP space" [.created "arn-3"] [] ["subnet-0a1", "subnet-0b2"]
     ["subnet-0a1", "subnet-0b2", "subnet-0c3"] (by decide) (by decide)⟩

/-- C5 (code bug): evaluated at the failing input — an empty exclusion
list over an inventory whose first listed subnet shares zone `us-east-1a`
with the working set while the second sits in distinct zone `us-east-1b`,
both with 20 free addresses — `check_existing_subnet_space` returns the
first, same-zone subnet: the search honours the exclusion list and the
8-free-address floor but never consults zones, contradicting its own
docstring ("in a different AZ") and the claimed preference. -/
theorem C5_zone_preference_not_implemented :
    check_existing_subnet_space invSameAzFirst [] = some "subnet-aaa1" ∧
    (invSameAzFirst.subnets.map
        (fun s => (s.id, s.az, decide (8 ≤ s.availableIpAddressCount)))) =
      [("subnet-aaa1", "us-east-1a", true),
       ("subnet-bbb2", "us-east-1b", true)] := by
  refine ⟨by decide, by decide⟩

/-- C6: for each managed resource type a second creation under the same
name is absorbed: the target-group reconciler run twice against the
name-registry provider yields the same handle both times and never a
failure; the autoscaling-group reconciler maps the `AlreadyExists` signal
to success; and the load-balancer orchestrator answers a duplicate-name
signal with the described existing ARN rather than an error. -/
theorem C6_idempotent_creation_absorbs_already_exists :
    (∀ (r : Registry) (n f1 f2 : String),
      ((ensure_target_group r n f1).1).isSome = true ∧
      (ensure_target_group (ensure_target_group r n f1).2 n f2).1 =
        (ensure_target_group r n f1).1) ∧
    (create_auto_scaling_group true ASGResponse.alreadyExists = true) ∧
    (∀ (inv : Inventory) (v : Option String) (ex : String)
      (rest : List LBResponse) (ss : List (Option String)) (subs : List String),
      (create_network_load_balancer inv v ex (.duplicateName :: rest) ss subs).1 =
        some ex) := by
  refine ⟨?_, rfl, fun _ _ _ _ _ _ => rfl⟩
  intro r n f1 f2
  cases hl : r.lookup n with
  | some a =>
    constructor
    · simp [ensure_target_group, providerCreateNamed, hl, create_target_group]
    · simp [ensure_target_group, providerCreateNamed, hl, create_target_group]
  | none =>
    have hl2 : (Registry.mk ((n, f1) :: r.entries)).lookup n = some f1 := by
      unfold Registry.lookup
      rw [List.find?_cons_of_pos _ (by simp)]
      rfl
    constructor
    · simp [ensure_target_group, providerCreateNamed, hl, create_target_group]
    · simp [ensure_target_group, providerCreateNamed, hl, hl2, create_target_group]

/-- Witness for the amended C2 at the three-response counterexample
script: exactly three attempts are recorded, within the bound of four. -/
theorem C2_retry_attempts_bounded_witness :
    ((create_network_load_balancer invRetry (some "vpc-1") "lb-old"
        [.invalidSubnet "Not enough IP space in subnet-0a1",
         .invalidSubnet "Not enough IP space in subnet-0c3",
         .created "arn-final"] []
        ["subnet-0a1", "subnet-0b2"]).2.2).length ≤ 3 + 1 :=
  C2_retry_attempts_bounded invRetry (some "vpc-1") "lb-old"
    [.invalidSubnet "Not enough IP space in subnet-0a1",
     .invalidSubnet "Not enough IP space in subnet-0c3",
     .created "arn-final"] []
    ["subnet-0a1", "subnet-0b2"]

/-- Witness for C6 at a concrete empty registry and fixed names. -/
theorem C6_idempotent_creation_absorbs_already_exists_witness :
    (((ensure_target_group ⟨[]⟩ "cpu-stresser-tg" "arn-1").1).isSome = true ∧
      (ensure_target_group (ensure_target_group ⟨[]⟩ "cpu-stresser-tg" "arn-1").2
          "cpu-stresser-tg" "arn-2").1 =
        (ensure_target_group ⟨[]⟩ "cpu-stresser-tg" "arn-1").1) ∧
    (create_auto_scaling_group true ASGResponse.alreadyExists = true) ∧
    ((create_network_load_balancer invSmall (some "vpc-1") "lb-arn"
        [.duplicateName] [] ["subnet-0a1"]).1 = some "lb-arn") :=
  ⟨C6_idempotent_creation_absorbs_already_exists.1 ⟨[]⟩ "cpu-stresser-tg"
     "arn-1" "arn-2",
   C6_idempotent_creation_absorbs_already_exists.2.1,
   C6_idempotent_creation_absorbs_already_exists.2.2 invSmall (some "vpc-1")
     "lb-arn" [] [] ["subnet-0a1"]⟩

/-- Witness for C9 at concrete zone lists: zone `zb` is picked because
`za` already hosts a subnet. -/
theorem C9_zone_selection_policy_witness :
    (pick_az ["za", "zb"] ["za"] = zoneSelectSpec ["za", "zb"] ["za"] ∧
      (pick_az ["za", "zb"] ["za"] = none ↔ (["za", "zb"] : List String) = [])) ∧
    pick_az ["za", "zb"] ["za"] = some "zb" :=
  ⟨C9_zone_selection_policy ["za", "zb"] ["za"], by decide⟩

/-- Witness for C10 at a concrete duplicate-name run. -/
theorem C10_duplicate_name_keeps_caller_subnets_witness :
    create_network_load_balancer invSmall (some "vpc-1") "lb-arn"
        [.duplicateName] [] ["subnet-0a1", "subnet-0b2"] =
      (some "lb-arn", ["subnet-0a1", "subnet-0b2"],
        [["subnet-0a1", "subnet-0b2"]]) :=
  C10_duplicate_name_keeps_caller_subnets invSmall (some "vpc-1") "lb-arn" []
    [] ["subnet-0a1", "subnet-0b2"]

end Iac
